import Mathlib

/-!
Verification development for `src/strcalc.c`, a small string-calculator:
literal digit-strings, concatenation (`.`) and repetition (`^`).

Bytes are modelled as `Nat` (ASCII codes); an input stream is a `List Nat`.
`unsigned long` is modelled at the LP64 width: 64 bits (`ULONG_BIT`), with
every arithmetic operation reduced modulo `2 ^ ULONG_BIT` as in C.
A `fatal(...)` call (which prints a diagnostic and exits with a non-zero
status, printing no result line) is modelled as an `Except.error` carrying
a constructor of `perr` that identifies the C diagnostic message.
-/

/-- Character classes from the `switch` in `next_tok` (strcalc.c:39-83).
The operator characters: `(` 40, `)` 41, `.` 46, `^` 94. -/
def isOpByte (c : Nat) : Bool :=
  c == 40 || c == 41 || c == 46 || c == 94

/-- ASCII decimal digits `'0'`..`'9'` (48..57), as tested by the digit cases
and by `isdigit` in `next_tok`. -/
def isDigitByte (c : Nat) : Bool :=
  48 ≤ c && c ≤ 57

/-- The whitespace set skipped by `next_tok`: space 32, tab 9, backspace 8,
vertical tab 11, carriage return 13, newline 10. -/
def isSpaceByte (c : Nat) : Bool :=
  c == 32 || c == 9 || c == 8 || c == 11 || c == 13 || c == 10

/-- `tok_t` (strcalc.c:18-27): a digit-string token, a single-character
operator token, or the end-of-input sentinel. -/
inductive tok_t where
  | TOK_STR (buf : List Nat)
  | TOK_OP (op : Nat)
  | TOK_EOF
deriving DecidableEq, Repr

/-- The digit-accumulation loop inside `next_tok` (strcalc.c:61-68): read
characters while they are digits; the first non-digit is pushed back
(`ungetc`), i.e. left at the head of the remaining stream. -/
def takeDigits : List Nat → List Nat × List Nat
  | [] => ([], [])
  | c :: rest =>
    if isDigitByte c then
      ((c :: (takeDigits rest).1), (takeDigits rest).2)
    else ([], c :: rest)

/-- `next_tok` (strcalc.c:39-83). Returns the token and the rest of the
stream; `none` models the function's error return code 1, which in the C
source only occurs on the unreachable fall-through after the `switch`
(every case either returns 0 or jumps back to `loop`). Whitespace is
skipped; an unrecognized character is reported on stderr and skipped. -/
def next_tok : List Nat → Option (tok_t × List Nat)
  | [] => some (.TOK_EOF, [])
  | c :: rest =>
    if isOpByte c then some (.TOK_OP c, rest)
    else if isDigitByte c then
      some (.TOK_STR (c :: (takeDigits rest).1), (takeDigits rest).2)
    else if isSpaceByte c then next_tok rest
    else next_tok rest

/-- `buf_dup` (strcalc.c:93-99): a deep copy; its byte content equals the
source's byte content. -/
def buf_dup (buf : List Nat) : List Nat := buf

/-- `buf_concat` (strcalc.c:107-114): `a`'s bytes followed by `b`'s bytes. -/
def buf_concat (a b : List Nat) : List Nat := a ++ b

/-- `buf_repeat` (strcalc.c:116-123): the loop copies `a` into slot `i` for
`i = 0 .. reps-1`; the cumulative content after `n+1` copies is the content
after `n` copies followed by one more copy of `a`. -/
def buf_repeat (a : List Nat) : Nat → List Nat
  | 0 => []
  | n + 1 => buf_repeat a n ++ a

/-- Bit width of `unsigned long` on the modelled platform (LP64). -/
def ULONG_BIT : Nat := 64

/-- `buf_asulong` (strcalc.c:125-132): left-to-right accumulation
`num = num * 10 + (buf.str[i] - '0')` in `unsigned long` arithmetic, i.e.
reduced modulo `2 ^ ULONG_BIT` at each step. -/
def buf_asulong (buf : List Nat) : Nat :=
  buf.foldl (fun num c => (num * 10 + (c - 48)) % 2 ^ ULONG_BIT) 0

/-- Modelled from the spec: the mathematical base-10 integer value of a
digit string (the "integer value" the spec's claims refer to), with no
machine-width reduction. Used only to compare `buf_asulong` against. -/
def natValue (buf : List Nat) : Nat :=
  buf.foldl (fun num c => num * 10 + (c - 48)) 0

/-- `tokenizer_t` (strcalc.c:142-146): the two-token lookahead cursor plus
the remaining character stream. -/
structure tokenizer_t where
  cur : tok_t
  next : tok_t
  input : List Nat
deriving DecidableEq, Repr

/-- `tokenizer_init` (strcalc.c:148-153): lex two tokens into `cur`/`next`;
`none` models the return code 1 propagated from `next_tok`. -/
def tokenizer_init (input : List Nat) : Option tokenizer_t :=
  match next_tok input with
  | none => none
  | some (t1, r1) =>
    match next_tok r1 with
    | none => none
    | some (t2, r2) => some ⟨t1, t2, r2⟩

/-- `tokenizer_peek` (strcalc.c:160-162). -/
def tokenizer_peek (tz : tokenizer_t) : tok_t := tz.cur

/-- `tokenizer_peeknext` (strcalc.c:164-166). -/
def tokenizer_peeknext (tz : tokenizer_t) : tok_t := tz.next

/-- `tokenizer_consume` (strcalc.c:168-173): free `cur` (a no-op on values),
shift `next` into `cur`, lex a fresh `next`. `none` models the return code 1
propagated from `next_tok`. -/
def tokenizer_consume (tz : tokenizer_t) : Option tokenizer_t :=
  match next_tok tz.input with
  | none => none
  | some (t, r) => some ⟨tz.next, t, r⟩

/-- `nodetype_t` (strcalc.c:175-179). -/
inductive nodetype_t where
  | EX_LIT
  | EX_CONCAT
  | EX_REPEAT
deriving DecidableEq, Repr

/-- The raw memory of an `ast_node` holding a literal: the discriminant
field `type` and the `buf` union member (strcalc.c:181-190). -/
structure astnode_raw where
  ty : nodetype_t
  buf : List Nat
deriving DecidableEq, Repr

/-- `ast_new_lit` (strcalc.c:192-196). The C body is
`res = malloc(sizeof(ast_node)); res->buf = buf_dup(buf); return res;` —
it assigns only `res->buf` and never assigns `res->type`, so the
discriminant keeps whatever the freshly allocated memory held; that
indeterminate residue is modelled by the explicit `junk` parameter. -/
def ast_new_lit (junk : nodetype_t) (buf : List Nat) : astnode_raw :=
  { ty := junk, buf := buf_dup buf }

/-- `ast_node` (strcalc.c:181-190) as a closed sum, with the node kind taken
as the one every consumer of the tree (printer, evaluator) expects. For
literal nodes this is the intended `EX_LIT` tag; see `ast_new_lit` above for
the fact that the C constructor actually leaves the tag unassigned. -/
inductive ast_node where
  | EX_LIT (buf : List Nat)
  | EX_CONCAT (left right : ast_node)
  | EX_REPEAT (left right : ast_node)
deriving DecidableEq, Repr

/-- `eval` (strcalc.c:318-340): a literal evaluates to a duplicate of its
buffer; `.` concatenates the children's values; `^` repeats the left value
`buf_asulong` of the right value times. -/
def eval : ast_node → List Nat
  | .EX_LIT buf => buf_dup buf
  | .EX_CONCAT l r => buf_concat (eval l) (eval r)
  | .EX_REPEAT l r => buf_repeat (eval l) (buf_asulong (eval r))

/-- The `fatal(...)` diagnostics the parser and driver can raise, one
constructor per distinct message in strcalc.c, plus `outOfFuel`, an
artifact of the fuel-indexed model of the recursive-descent parser. -/
inductive perr where
  | afterLiteral
  | afterOpenParen
  | expectedCloseParen
  | afterCloseParen
  | expectedToplevel
  | afterRepeatOp
  | afterConcatOp
  | initFailed
  | outOfFuel
deriving DecidableEq, Repr

/-- Which of the mutually recursive parser productions is running:
`parse_toplevel`, `parse_repeat`, `parse_concat`, or the `while` loop body
of `parse_concat` (which carries the accumulated left operand). -/
inductive ParseKind where
  | top
  | rep
  | cat
  | catLoop (left : ast_node)
deriving DecidableEq, Repr

/-- The mutually recursive parser of strcalc.c:257-316, fuel-indexed so the
recursion is structural. `.top` is `parse_toplevel` (257-279), `.rep` is
`parse_repeat` (281-299), `.cat` is `parse_concat` (301-311) entry and
`.catLoop left` its `while` loop, and `parse` (314-316) is `.cat`.
Literal construction is `ast_new_lit(cur.buf)` with the tag read as the
intended `EX_LIT` (see `ast_new_lit`). -/
def parseGo : Nat → ParseKind → tokenizer_t → Except perr (ast_node × tokenizer_t)
  | 0, _, _ => .error .outOfFuel
  | f + 1, k, tz =>
    match k with
    | .top =>
      match tokenizer_peek tz with
      | .TOK_STR b =>
        match tokenizer_consume tz with
        | none => .error .afterLiteral
        | some tz1 => .ok (.EX_LIT (buf_dup b), tz1)
      | .TOK_OP c =>
        if c == 40 then
          match tokenizer_consume tz with
          | none => .error .afterOpenParen
          | some tz1 =>
            match parseGo f .cat tz1 with
            | .error e => .error e
            | .ok (node, tz2) =>
              match tokenizer_peek tz2 with
              | .TOK_OP c2 =>
                if c2 == 41 then
                  match tokenizer_consume tz2 with
                  | none => .error .afterCloseParen
                  | some tz3 => .ok (node, tz3)
                else .error .expectedCloseParen
              | _ => .error .expectedCloseParen
        else .error .expectedToplevel
      | .TOK_EOF => .error .expectedToplevel
    | .rep =>
      match parseGo f .top tz with
      | .error e => .error e
      | .ok (left, tz1) =>
        match tokenizer_peek tz1 with
        | .TOK_OP c =>
          if c == 94 then
            match tokenizer_consume tz1 with
            | none => .error .afterRepeatOp
            | some tz2 =>
              match
                (match tokenizer_peeknext tz2 with
                 | .TOK_OP c2 => if c2 == 94 then parseGo f .rep tz2 else parseGo f .top tz2
                 | _ => parseGo f .top tz2) with
              | .error e => .error e
              | .ok (right, tz3) => .ok (.EX_REPEAT left right, tz3)
          else .ok (left, tz1)
        | _ => .ok (left, tz1)
    | .cat =>
      match parseGo f .rep tz with
      | .error e => .error e
      | .ok (left, tz1) => parseGo f (.catLoop left) tz1
    | .catLoop left =>
      match tokenizer_peek tz with
      | .TOK_OP c =>
        if c == 46 then
          match tokenizer_consume tz with
          | none => .error .afterConcatOp
          | some tz1 =>
            match parseGo f .rep tz1 with
            | .error e => .error e
            | .ok (right, tz2) => parseGo f (.catLoop (.EX_CONCAT left right)) tz2
        else .ok (left, tz)
      | _ => .ok (left, tz)

/-- `parse_toplevel` (strcalc.c:257-279). -/
def parse_toplevel (f : Nat) (tz : tokenizer_t) : Except perr (ast_node × tokenizer_t) :=
  parseGo f .top tz

/-- `parse_repeat` (strcalc.c:281-299). -/
def parse_repeat (f : Nat) (tz : tokenizer_t) : Except perr (ast_node × tokenizer_t) :=
  parseGo f .rep tz

/-- `parse_concat` (strcalc.c:301-311). -/
def parse_concat (f : Nat) (tz : tokenizer_t) : Except perr (ast_node × tokenizer_t) :=
  parseGo f .cat tz

/-- `parse` (strcalc.c:314-316). -/
def parse (f : Nat) (tz : tokenizer_t) : Except perr (ast_node × tokenizer_t) :=
  parse_concat f tz

/-- Fuel bound for a run of the parser on a given input: each unit of
recursion depth beyond a small constant consumes at least one input byte,
so this bound is never the binding constraint on the runs considered. -/
def FUEL (input : List Nat) : Nat := 8 * input.length + 8

/-- `main` (strcalc.c:342-354): initialize the cursor, parse one expression,
(print the tree,) evaluate it and print the result. An `Except.error`
models a `fatal` diagnostic: the process exits with a non-zero status and
no result line is printed. Note that after `parse` returns, `main` never
looks at the cursor again: remaining tokens are ignored. -/
def run (input : List Nat) : Except perr (List Nat) :=
  match tokenizer_init input with
  | none => .error .initFailed
  | some tz =>
    match parse (FUEL input) tz with
    | .error e => .error e
    | .ok (node, _) => .ok (eval node)

/-- The cumulative indentation emitted by the loop in `print_lev`
(strcalc.c:220-227): each of the `lev` iterations emits the four characters
`'|'` `' '` `' '` `' '` (bytes 124, 32, 32, 32). -/
def print_lev_pad : Nat → List Nat
  | 0 => []
  | n + 1 => print_lev_pad n ++ [124, 32, 32, 32]

/-! ## Helper lemmas -/

/-- A digit byte is neither an operator byte nor a whitespace byte. -/
theorem digit_not_op_space {c : Nat} (h : isDigitByte c = true) :
    isOpByte c = false ∧ isSpaceByte c = false := by
  simp only [isDigitByte, Bool.and_eq_true, decide_eq_true_eq] at h
  simp only [isOpByte, isSpaceByte, Bool.or_eq_false_iff, beq_eq_false_iff_ne, ne_eq]
  omega

/-- On an all-digit stream the digit loop consumes everything. -/
theorem takeDigits_all (s : List Nat) (h : ∀ c ∈ s, isDigitByte c = true) :
    takeDigits s = (s, []) := by
  induction s with
  | nil => rfl
  | cons c rest ih =>
    have hc : isDigitByte c = true := h c (List.mem_cons_self c rest)
    have hr := ih (fun x hx => h x (List.mem_cons_of_mem c hx))
    simp [takeDigits, hc, hr]

/-- A non-empty all-digit stream lexes to a single string token holding
exactly the stream, with nothing left over. -/
theorem next_tok_digits (c : Nat) (rest : List Nat) (hc : isDigitByte c = true)
    (hr : ∀ x ∈ rest, isDigitByte x = true) :
    next_tok (c :: rest) = some (.TOK_STR (c :: rest), []) := by
  obtain ⟨hop, _⟩ := digit_not_op_space hc
  simp [next_tok, hop, hc, takeDigits_all rest hr]

/-- `next_tok` always returns a token: its error return is unreachable. -/
theorem next_tok_some (s : List Nat) : ∃ t r, next_tok s = some (t, r) := by
  induction s with
  | nil => exact ⟨_, _, rfl⟩
  | cons c rest ih =>
    simp only [next_tok]
    split
    · exact ⟨_, _, rfl⟩
    · split
      · exact ⟨_, _, rfl⟩
      · split
        · exact ih
        · exact ih

/-- `tokenizer_consume` always succeeds. -/
theorem tokenizer_consume_some (tz : tokenizer_t) :
    ∃ tz', tokenizer_consume tz = some tz' := by
  obtain ⟨t, r, h⟩ := next_tok_some tz.input
  exact ⟨⟨tz.next, t, r⟩, by simp [tokenizer_consume, h]⟩

/-- `tokenizer_init` always succeeds. -/
theorem tokenizer_init_some (s : List Nat) : ∃ tz, tokenizer_init s = some tz := by
  obtain ⟨t1, r1, h1⟩ := next_tok_some s
  obtain ⟨t2, r2, h2⟩ := next_tok_some r1
  exact ⟨⟨t1, t2, r2⟩, by simp [tokenizer_init, h1, h2]⟩

/-- The fatal diagnostics that guard a `tokenizer_consume` (or, in `main`,
the `tokenizer_init`) return code. -/
def deadErr : perr → Bool
  | .afterLiteral | .afterOpenParen | .afterCloseParen
  | .afterRepeatOp | .afterConcatOp | .initFailed => true
  | _ => false

/-- Whether a parser outcome is one of the consume-guarding diagnostics. -/
def isDeadErr : Except perr (ast_node × tokenizer_t) → Bool
  | .error e => deadErr e
  | .ok _ => false


/-- No run of any parser production can produce a consume-guarding
diagnostic: those branches are dead code. -/
theorem parseGo_no_dead (f : Nat) : ∀ (k : ParseKind) (tz : tokenizer_t),
    isDeadErr (parseGo f k tz) = false := by
  induction f with
  | zero => intro k tz; rfl
  | succ f ih =>
    intro k tz
    cases k with
    | top =>
      simp only [parseGo]
      cases htcur : tokenizer_peek tz with
      | TOK_STR b =>
        obtain ⟨tz1, hc⟩ := tokenizer_consume_some tz
        simp [htcur, hc, isDeadErr]
      | TOK_OP c =>
        by_cases h40 : c = 40
        · subst h40
          obtain ⟨tz1, hc⟩ := tokenizer_consume_some tz
          cases hsub : parseGo f .cat tz1 with
          | error e =>
            have hdead := ih .cat tz1
            rw [hsub] at hdead
            simpa [htcur, hc, hsub, isDeadErr] using hdead
          | ok pr =>
            obtain ⟨node, tz2⟩ := pr
            obtain ⟨tz3, hc2⟩ := tokenizer_consume_some tz2
            cases htcur2 : tokenizer_peek tz2 with
            | TOK_OP c2 =>
              by_cases h41 : c2 = 41
              · subst h41
                simp [htcur, hc, hsub, htcur2, hc2, isDeadErr]
              · simp [htcur, hc, hsub, htcur2, h41, isDeadErr, deadErr]
            | TOK_STR b2 => simp [htcur, hc, hsub, htcur2, isDeadErr, deadErr]
            | TOK_EOF => simp [htcur, hc, hsub, htcur2, isDeadErr, deadErr]
        · simp [htcur, h40, isDeadErr, deadErr]
      | TOK_EOF => simp [htcur, isDeadErr, deadErr]
    | rep =>
      simp only [parseGo]
      cases hsub : parseGo f .top tz with
      | error e =>
        have hdead := ih .top tz
        rw [hsub] at hdead
        simpa [hsub, isDeadErr] using hdead
      | ok pr =>
        obtain ⟨left, tz1⟩ := pr
        cases htcur : tokenizer_peek tz1 with
        | TOK_OP c =>
          by_cases h94 : c = 94
          · subst h94
            obtain ⟨tz2, hc⟩ := tokenizer_consume_some tz1
            cases htnext : tokenizer_peeknext tz2 with
            | TOK_OP c2 =>
              by_cases h94b : c2 = 94
              · subst h94b
                cases hsub2 : parseGo f .rep tz2 with
                | error e =>
                  have hdead := ih .rep tz2
                  rw [hsub2] at hdead
                  simpa [hsub, htcur, hc, htnext, hsub2, isDeadErr] using hdead
                | ok pr2 =>
                  obtain ⟨right, tz3⟩ := pr2
                  simp [hsub, htcur, hc, htnext, hsub2, isDeadErr]
              · cases hsub2 : parseGo f .top tz2 with
                | error e =>
                  have hdead := ih .top tz2
                  rw [hsub2] at hdead
                  simpa [hsub, htcur, hc, htnext, h94b, hsub2, isDeadErr] using hdead
                | ok pr2 =>
                  obtain ⟨right, tz3⟩ := pr2
                  simp [hsub, htcur, hc, htnext, h94b, hsub2, isDeadErr]
            | TOK_STR b2 =>
              cases hsub2 : parseGo f .top tz2 with
              | error e =>
                have hdead := ih .top tz2
                rw [hsub2] at hdead
                simpa [hsub, htcur, hc, htnext, hsub2, isDeadErr] using hdead
              | ok pr2 =>
                obtain ⟨right, tz3⟩ := pr2
                simp [hsub, htcur, hc, htnext, hsub2, isDeadErr]
            | TOK_EOF =>
              cases hsub2 : parseGo f .top tz2 with
              | error e =>
                have hdead := ih .top tz2
                rw [hsub2] at hdead
                simpa [hsub, htcur, hc, htnext, hsub2, isDeadErr] using hdead
              | ok pr2 =>
                obtain ⟨right, tz3⟩ := pr2
                simp [hsub, htcur, hc, htnext, hsub2, isDeadErr]
          · simp [hsub, htcur, h94, isDeadErr]
        | TOK_STR b2 => simp [hsub, htcur, isDeadErr]
        | TOK_EOF => simp [hsub, htcur, isDeadErr]
    | cat =>
      simp only [parseGo]
      cases hsub : parseGo f .rep tz with
      | error e =>
        have hdead := ih .rep tz
        rw [hsub] at hdead
        simpa [hsub, isDeadErr] using hdead
      | ok pr =>
        obtain ⟨left, tz1⟩ := pr
        have hdead := ih (.catLoop left) tz1
        simpa [hsub] using hdead
    | catLoop left =>
      simp only [parseGo]
      cases htcur : tokenizer_peek tz with
      | TOK_OP c =>
        by_cases h46 : c = 46
        · subst h46
          obtain ⟨tz1, hc⟩ := tokenizer_consume_some tz
          cases hsub : parseGo f .rep tz1 with
          | error e =>
            have hdead := ih .rep tz1
            rw [hsub] at hdead
            simpa [htcur, hc, hsub, isDeadErr] using hdead
          | ok pr =>
            obtain ⟨right, tz2⟩ := pr
            have hdead := ih (.catLoop (.EX_CONCAT left right)) tz2
            simpa [htcur, hc, hsub] using hdead
        · simp [htcur, h46, isDeadErr]
      | TOK_STR b => simp [htcur, isDeadErr]
      | TOK_EOF => simp [htcur, isDeadErr]

/-- With any fuel budget of at least 3, a cursor holding a single string
token parses to the corresponding literal node, consuming it. -/
theorem parseGo_single_lit (f : Nat) (s : List Nat) :
    parseGo (f + 3) .cat ⟨.TOK_STR s, .TOK_EOF, []⟩ =
      .ok (.EX_LIT s, ⟨.TOK_EOF, .TOK_EOF, []⟩) := rfl

/-- Joining one more copy on the left is the same as on the right when all
copies are equal. -/
theorem join_replicate_comm (u : List Nat) (n : Nat) :
    (List.replicate n u).flatten ++ u = u ++ (List.replicate n u).flatten := by
  induction n with
  | zero => simp
  | succ n ih =>
    simp only [List.replicate_succ, List.flatten_cons, List.append_assoc]
    rw [ih]

/-- `buf_repeat` produces the concatenation of `n` copies of `a`. -/
theorem buf_repeat_eq_join (a : List Nat) (n : Nat) :
    buf_repeat a n = (List.replicate n a).flatten := by
  induction n with
  | zero => rfl
  | succ n ih =>
    simp only [buf_repeat, ih, List.replicate_succ, List.flatten_cons]
    rw [join_replicate_comm]

/-- Length of a join of `n` equal copies. -/
theorem join_replicate_length (u : List Nat) (n : Nat) :
    (List.replicate n u).flatten.length = n * u.length := by
  induction n with
  | zero => simp
  | succ n ih =>
    simp only [List.replicate_succ, List.flatten_cons, List.length_append, ih]
    ring

/-- The wrapped accumulation of `buf_asulong` computes the base-10 value
reduced modulo the `unsigned long` modulus: reducing at every step agrees
with reducing once at the end. -/
theorem foldl_asulong_mod (b : List Nat) : ∀ acc : Nat,
    b.foldl (fun num c => (num * 10 + (c - 48)) % 2 ^ ULONG_BIT) (acc % 2 ^ ULONG_BIT) =
      (b.foldl (fun num c => num * 10 + (c - 48)) acc) % 2 ^ ULONG_BIT := by
  induction b with
  | nil => intro acc; rfl
  | cons c rest ih =>
    intro acc
    simp only [List.foldl_cons]
    have hstep : (acc % 2 ^ ULONG_BIT * 10 + (c - 48)) % 2 ^ ULONG_BIT =
        (acc * 10 + (c - 48)) % 2 ^ ULONG_BIT :=
      ((Nat.mod_modEq acc (2 ^ ULONG_BIT)).mul_right 10).add_right (c - 48)
    rw [hstep, ih]

/-- `buf_asulong` is the mathematical base-10 value reduced modulo
`2 ^ ULONG_BIT`. -/
theorem buf_asulong_eq_mod (b : List Nat) :
    buf_asulong b = natValue b % 2 ^ ULONG_BIT := by
  have h := foldl_asulong_mod b 0
  simpa [buf_asulong, natValue] using h

/-! ## Claims -/

/-- C1: for every non-empty string of ASCII decimal digits given as the
whole input, parsing and then evaluating yields a Buffer whose bytes are
exactly the input (round-trip identity for literals). -/
theorem C1_literal_roundtrip (s : List Nat) (hne : s ≠ [])
    (hdig : ∀ c ∈ s, isDigitByte c = true) : run s = .ok s := by
  cases s with
  | nil => exact absurd rfl hne
  | cons c rest =>
    have hinit : tokenizer_init (c :: rest) =
        some ⟨.TOK_STR (c :: rest), .TOK_EOF, []⟩ := by
      have h1 := next_tok_digits c rest (hdig c (List.mem_cons_self c rest))
        (fun x hx => hdig x (List.mem_cons_of_mem c hx))
      unfold tokenizer_init
      rw [h1]
      rfl
    have hparse : parse (FUEL (c :: rest)) ⟨.TOK_STR (c :: rest), .TOK_EOF, []⟩ =
        .ok (.EX_LIT (c :: rest), ⟨.TOK_EOF, .TOK_EOF, []⟩) :=
      parseGo_single_lit (8 * (c :: rest).length + 5) (c :: rest)
    simp [run, hinit, hparse, eval, buf_dup]

/-- Witness for C1 at the concrete one-digit input `7`. -/
theorem C1_literal_roundtrip_witness : run [55] = .ok [55] :=
  C1_literal_roundtrip [55] (by decide) (by decide)

/-- C2: evaluating `a.b` byte-concatenates the evaluations of `a` and `b`;
consequently `(a.b).c` and `a.(b.c)` evaluate to the same byte sequence. -/
theorem C2_concat_assoc (a b c : ast_node) :
    eval (.EX_CONCAT a b) = eval a ++ eval b ∧
    eval (.EX_CONCAT (.EX_CONCAT a b) c) = eval (.EX_CONCAT a (.EX_CONCAT b c)) := by
  constructor
  · rfl
  · simp [eval, buf_concat, List.append_assoc]

/-- The decimal digit string of `2 ^ 64 = 18446744073709551616`, the least
count at which `buf_asulong` wraps to 0. -/
def bigDigits : List Nat :=
  [49, 56, 52, 52, 54, 55, 52, 52, 48, 55, 51, 55, 48, 57, 53, 53, 49, 54, 49, 54]

/-- C3 counterexample: with `a = "1"` and the digit string
`n = "18446744073709551616"` (value `2 ^ 64`), evaluating `a^n` yields the
empty Buffer, not `n`'s integer value copies of `"1"`: the repetition count
is reduced modulo `2 ^ ULONG_BIT`. -/
theorem C3_counterexample :
    eval (.EX_REPEAT (.EX_LIT [49]) (.EX_LIT bigDigits)) ≠
      (List.replicate (natValue bigDigits) (eval (.EX_LIT [49]))).flatten := by
  intro h
  have h0 : eval (.EX_REPEAT (.EX_LIT [49]) (.EX_LIT bigDigits)) = ([] : List Nat) := by
    decide
  have hv : natValue bigDigits = 18446744073709551616 := by decide
  have hlen := congrArg List.length h
  rw [h0, join_replicate_length, hv] at hlen
  simp [eval, buf_dup] at hlen

/-- C3 (amended): `repeat(a, n)` returns `a`'s bytes repeated `n` times in
order, of length `a.length * n`, with `n = 0` yielding the empty Buffer;
evaluating `a^n` for a digit string `n` yields `n`'s integer value
REDUCED MODULO `2 ^ ULONG_BIT` copies of `a`'s evaluation concatenated in
order, and `a^0` yields an empty result. -/
theorem C3_repeat_amended :
    (∀ (a : List Nat) (n : Nat),
      buf_repeat a n = (List.replicate n a).flatten ∧
      (buf_repeat a n).length = a.length * n ∧ buf_repeat a 0 = []) ∧
    (∀ (a : ast_node) (n : List Nat), (∀ c ∈ n, isDigitByte c = true) →
      eval (.EX_REPEAT a (.EX_LIT n)) =
        (List.replicate (natValue n % 2 ^ ULONG_BIT) (eval a)).flatten) ∧
    (∀ a : ast_node, eval (.EX_REPEAT a (.EX_LIT [48])) = []) := by
  refine ⟨fun a n => ⟨buf_repeat_eq_join a n, ?_, rfl⟩, fun a n _ => ?_, fun a => rfl⟩
  · rw [buf_repeat_eq_join, join_replicate_length]
    ring
  · have hr : eval (.EX_REPEAT a (.EX_LIT n)) =
        buf_repeat (eval a) (buf_asulong n) := rfl
    rw [hr, buf_asulong_eq_mod, buf_repeat_eq_join]

/-- Witness for C3 (amended) at `a = Literal "1"`, `n = "3"`. -/
theorem C3_repeat_amended_witness :
    eval (.EX_REPEAT (.EX_LIT [49]) (.EX_LIT [51])) =
      (List.replicate (natValue [51] % 2 ^ ULONG_BIT) (eval (.EX_LIT [49]))).flatten :=
  C3_repeat_amended.2.1 (.EX_LIT [49]) [51] (by decide)

/-- C4: on input `1^2^2` the two-token-ahead rule after the first `^` picks
the recursive repeat parse, giving `Repeat(Lit "1", Repeat(Lit "2", Lit "2"))`;
the inner repeat evaluates to `"22"`, read as the count 22, so the whole
program evaluates to `"1"` repeated 22 times. -/
theorem C4_two_ahead_chain :
    tokenizer_init [49, 94, 50, 94, 50] =
      some ⟨.TOK_STR [49], .TOK_OP 94, [50, 94, 50]⟩ ∧
    parse (FUEL [49, 94, 50, 94, 50]) ⟨.TOK_STR [49], .TOK_OP 94, [50, 94, 50]⟩ =
      .ok (.EX_REPEAT (.EX_LIT [49]) (.EX_REPEAT (.EX_LIT [50]) (.EX_LIT [50])),
        ⟨.TOK_EOF, .TOK_EOF, []⟩) ∧
    eval (.EX_REPEAT (.EX_LIT [50]) (.EX_LIT [50])) = [50, 50] ∧
    buf_asulong [50, 50] = 22 ∧
    run [49, 94, 50, 94, 50] = .ok (List.replicate 22 49) :=
  ⟨rfl, rfl, rfl, rfl, rfl⟩

/-- C5 counterexample: the input `1)` — a valid expression followed by an
unmatched `)` — is NOT a fatal error: the run completes successfully,
evaluating the leading expression and ignoring the trailing token. -/
theorem C5_counterexample : run [49, 41] = .ok [49] := rfl

/-- C5 (amended): unexpected tokens at primary position and missing close
parentheses abort the run fatally, but trailing tokens after a complete
toplevel expression are not errors: whenever the parser returns a node,
the driver evaluates it and ignores whatever tokens remain in the cursor. -/
theorem C5_trailing_ignored (input : List Nat) (tz0 tz1 : tokenizer_t)
    (a : ast_node) (hinit : tokenizer_init input = some tz0)
    (hparse : parse (FUEL input) tz0 = .ok (a, tz1)) :
    run input = .ok (eval a) := by
  simp [run, hinit, hparse]

/-- Witness for C5 (amended) at input `1)`: the cursor still holds the
unmatched `)` when the parser returns, and the run succeeds anyway. -/
theorem C5_trailing_ignored_witness :
    run [49, 41] = .ok (eval (.EX_LIT [49])) :=
  C5_trailing_ignored [49, 41] ⟨.TOK_STR [49], .TOK_OP 41, []⟩
    ⟨.TOK_OP 41, .TOK_EOF, []⟩ (.EX_LIT [49]) rfl rfl

/-- C6: `ast_new_lit` deep-copies the payload but never assigns the node's
discriminant; when the allocation's residue is a non-literal tag (here
`EX_CONCAT`), the returned node's kind is not `Literal`, contradicting the
claim that the discriminant identifies it as a literal. -/
theorem C6_lit_tag_unassigned :
    (ast_new_lit .EX_CONCAT [49]).ty ≠ nodetype_t.EX_LIT ∧
    (ast_new_lit .EX_CONCAT [49]).buf = [49] :=
  ⟨by decide, rfl⟩

/-- C7: `(1.2` (missing close parenthesis) terminates with the fatal
"expected close paren" diagnostic — non-zero exit, no result line — and
`^3` (operator with no left operand) terminates with the fatal
"expected toplevel expression" diagnostic. -/
theorem C7_malformed_fatal :
    run [40, 49, 46, 50] = .error .expectedCloseParen ∧
    run [94, 51] = .error .expectedToplevel :=
  ⟨rfl, rfl⟩

/-- C8 counterexample: the indentation prefix at nesting level 1 is a
single copy of the per-level unit, and its length is 4, not 3: the unit is
the four characters `'|'` `' '` `' '` `' '`. -/
theorem C8_counterexample : (print_lev_pad 1).length ≠ 3 := by decide

/-- C8 (amended): the indentation prefix before a line at nesting level `L`
consists of exactly `L` copies of a fixed FOUR-character unit
(`'|'` followed by three spaces). -/
theorem C8_indent_per_level (L : Nat) :
    print_lev_pad L = (List.replicate L [124, 32, 32, 32]).flatten ∧
    (print_lev_pad L).length = 4 * L := by
  constructor
  · induction L with
    | zero => rfl
    | succ n ih =>
      simp only [print_lev_pad, ih, List.replicate_succ, List.flatten_cons]
      rw [join_replicate_comm]
  · induction L with
    | zero => rfl
    | succ n ih =>
      simp only [print_lev_pad, List.length_append, ih, List.length_cons,
        List.length_nil]
      omega

/-- C9: `next_tok` always succeeds (its error return is unreachable), so
`tokenizer_init` and `tokenizer_consume` never report failure, and none of
the parser's "Syntax error after ..." fatal branches guarding
`tokenizer_consume` (nor `main`'s branch guarding `tokenizer_init`) can
ever produce their diagnostic: they are dead code. -/
theorem C9_tokenizer_never_fails :
    (∀ s : List Nat, (next_tok s).isSome = true) ∧
    (∀ s : List Nat, (tokenizer_init s).isSome = true) ∧
    (∀ tz : tokenizer_t, (tokenizer_consume tz).isSome = true) ∧
    (∀ (f : Nat) (tz : tokenizer_t),
      isDeadErr (parse_toplevel f tz) = false ∧
      isDeadErr (parse_repeat f tz) = false ∧
      isDeadErr (parse_concat f tz) = false ∧
      isDeadErr (parse f tz) = false) := by
  refine ⟨?_, ?_, ?_, ?_⟩
  · intro s; obtain ⟨t, r, h⟩ := next_tok_some s; simp [h]
  · intro s; obtain ⟨tz, h⟩ := tokenizer_init_some s; simp [h]
  · intro tz; obtain ⟨tz', h⟩ := tokenizer_consume_some tz; simp [h]
  · intro f tz
    exact ⟨parseGo_no_dead f .top tz, parseGo_no_dead f .rep tz,
      parseGo_no_dead f .cat tz, parseGo_no_dead f .cat tz⟩

/-- C10: for every all-digit Buffer, `buf_asulong` returns its base-10
value reduced modulo `2 ^ ULONG_BIT` (wrapping, not saturating), and the
empty Buffer yields 0. -/
theorem C10_asulong_wraps :
    (∀ b : List Nat, (∀ c ∈ b, isDigitByte c = true) →
      buf_asulong b = natValue b % 2 ^ ULONG_BIT) ∧
    buf_asulong [] = 0 :=
  ⟨fun b _ => buf_asulong_eq_mod b, rfl⟩

/-- Witness for C10 at the all-digit Buffer `42`. -/
theorem C10_asulong_wraps_witness :
    buf_asulong [52, 50] = natValue [52, 50] % 2 ^ ULONG_BIT :=
  C10_asulong_wraps.1 [52, 50] (by decide)
